import Mathlib

/-!
Verification of scripts/check_compliance.py.

The script runs a registry of compliance checks (subclasses of
ComplianceTest, in class-declaration order), collects one junitparser
test case per executed check into a suite, writes a JUnit report,
optionally mirrors results to GitHub (per-check commit statuses plus one
consolidated pull-request comment), and exits with the number of
non-passed, non-skipped results.

Shallow embedding: a recorded junitparser result is a `TestResult`
(element class, message, type attribute, optional element text); a
`MyCase` mirrors the MyCase TestCase subclass (name, classname and doc
attributes, optional result).  Passed checks leave `result = none`, as
the script never assigns `case.result` for a clean run.
-/

namespace CheckCompliance

/-- Which junitparser result-element class the script instantiated:
`Skipped(...)`, `Failure(...)` or `Error(...)`.  The class determines the
XML element tag (`skipped` / `failure` / `error`). -/
inductive ResultTag
  | skippedTag
  | failureTag
  | errorTag
deriving DecidableEq, Repr

/-- A recorded result, as built by `Cls(message, type)` with an optional
later assignment to `self.case.result._elem.text`. -/
structure TestResult where
  tag : ResultTag
  message : String
  type : String
  text : Option String
deriving DecidableEq, Repr

/-- The MyCase TestCase subclass: attributes `classname` and `doc` are
declared via `Attr()`; either is absent from the XML until assigned. -/
structure MyCase where
  name : String
  classname : Option String
  doc : Option String
  result : Option TestResult
deriving DecidableEq, Repr

/-- ComplianceTest.prepare: `self.case = MyCase(self._name)` followed by
`self.case.classname = "Guidelines"`.  No statement in the script ever
assigns `self.case.doc`, so the doc attribute stays unset. -/
def prepare (name : String) : MyCase :=
  ⟨name, some "Guidelines", none, none⟩

/-- The assignment `self.case.result = r` performed by check bodies. -/
def setResult (c : MyCase) (r : Option TestResult) : MyCase :=
  ⟨c.name, c.classname, c.doc, r⟩

/-- The condition `case.result and case.result.type != 'skipped'` used
identically by main's exit-code loop and by report_to_github. -/
def countedResult : Option TestResult → Bool
  | none => false
  | some r => r.type != "skipped"

/-- main, non-GitHub path: `errors = 0` then one pass over the suite
incrementing `errors` for every counted result; `sys.exit(errors)`. -/
def aggregateErrors (suite : List MyCase) : Nat :=
  suite.foldl (fun errors c => if countedResult c.result then errors + 1 else errors) 0

/-- The four-valued outcome taxonomy of the specification. -/
inductive Status
  | Passed
  | Failed
  | Error
  | Skipped
deriving DecidableEq, Repr

/-- Status of a recorded case: no result object means the check passed;
otherwise the junitparser element class names the category. -/
def resultStatus : Option TestResult → Status
  | none => Status.Passed
  | some r =>
    match r.tag with
    | ResultTag.skippedTag => Status.Skipped
    | ResultTag.failureTag => Status.Failed
    | ResultTag.errorTag => Status.Error

/-- Results the script actually constructs carry type "skipped" exactly
when the element class is Skipped: every `Skipped(...)` is built with
type "skipped" and every `Failure(...)`/`Error(...)` with type "failure"
or "error". -/
def resultWF (r : Option TestResult) : Prop :=
  match r with
  | none => True
  | some tr => (tr.type = "skipped" ↔ tr.tag = ResultTag.skippedTag)

instance (r : Option TestResult) : Decidable (resultWF r) :=
  match r with
  | none => isTrue trivial
  | some tr =>
    inferInstanceAs (Decidable (tr.type = "skipped" ↔ tr.tag = ResultTag.skippedTag))

/-- The checks whose output is prose: report_to_github omits the code
fence for `['Gitlint', 'Identity/Emails', 'License']`. -/
def proseChecks : List String := ["Gitlint", "Identity/Emails", "License"]

/-- Python's `"{}".format(x)` renders `None` as the string "None". -/
def optTextStr : Option String → String
  | none => "None"
  | some s => s

/-- The per-case text appended to the consolidated comment for a counted
result: heading with the result message, blank line, then the element
text, fenced unless the check is in `proseChecks`. -/
def chunkOf (c : MyCase) (r : TestResult) : String :=
  "## " ++ r.message ++ "\n" ++ "\n"
    ++ (if proseChecks.contains c.name then "" else "```\n")
    ++ optTextStr r.text ++ "\n"
    ++ (if proseChecks.contains c.name then "" else "```\n")

/-- Initial value of the `comment` variable in report_to_github. -/
def commentHeader : String := "Found the following issues, please fix and resubmit:\n\n"

/-- The substring report_to_github searches for in existing issue
comments to find one authored by a previous run. -/
def commentMarker : String := "Found the following issues, please fix and resubmit"

/-- The loop state of report_to_github's pass over the suite: the comment
accumulator, `comment_count`, and the commit statuses created so far as
(context name, state) pairs. -/
structure PubState where
  comment : String
  commentCnt : Nat
  statuses : List (String × String)
deriving DecidableEq, Repr

/-- One iteration of report_to_github's `for case in suite` loop: a
counted result grows the comment, bumps `comment_count` and creates a
'failure' status; any other case creates a 'success' status. -/
def processCase (st : PubState) (c : MyCase) : PubState :=
  match c.result with
  | some r =>
    if r.type != "skipped" then
      ⟨st.comment ++ chunkOf c r, st.commentCnt + 1, st.statuses ++ [(c.name, "failure")]⟩
    else
      ⟨st.comment, st.commentCnt, st.statuses ++ [(c.name, "success")]⟩
  | none => ⟨st.comment, st.commentCnt, st.statuses ++ [(c.name, "success")]⟩

/-- report_to_github's whole pass over the suite. -/
def processResults (suite : List MyCase) : PubState :=
  suite.foldl processCase ⟨commentHeader, 0, []⟩

/-- The commit-status state report_to_github creates for one case. -/
def statusState (c : MyCase) : String :=
  if countedResult c.result then "failure" else "success"

/-- Python's substring test `needle in haystack`, on character lists. -/
def hasSubstr (needle : List Char) : List Char → Bool
  | [] => needle.isEmpty
  | c :: rest => needle.isPrefixOf (c :: rest) || hasSubstr needle rest

/-- The test `'Found the following issues, please fix and resubmit' in
cmnt.body` applied to a comment body. -/
def containsMarker (body : String) : Bool :=
  hasSubstr commentMarker.data body.data

/-- The `for cmnt in comments: ... cmnt.edit(comment); break` loop:
replace the body of the first comment containing the marker. -/
def editFirstMarked (body : String) : List String → List String
  | [] => []
  | c :: rest =>
    if containsMarker c then body :: rest else c :: editFirstMarked body rest

/-- The comment-publication step: edit the first marked comment if one
exists, otherwise create a new issue comment at the end of the thread. -/
def publishThread (body : String) (thread : List String) : List String :=
  if thread.any containsMarker then editFirstMarked body thread
  else thread ++ [body]

/-- report_to_github with GH_TOKEN present, modelling the issue-comment
thread as the list of comment bodies in creation order.  `repoOk` and
`prOk` are the truthiness of `repo` and `pull_request` in
`if repo and pull_request and comment_count > 0`.  Returns the updated
thread, the created statuses, and `comment_count` (the return value). -/
def reportToGithub (repoOk prOk : Bool) (suite : List MyCase) (thread : List String) :
    (List String × List (String × String)) × Nat :=
  let st := processResults suite
  let thread2 :=
    if repoOk && prOk && decide (0 < st.commentCnt) then publishThread st.comment thread
    else thread
  ((thread2, st.statuses), st.commentCnt)

/-- The value main passes to `sys.exit`: report_to_github's return value
on the publishing path, else the counting loop's result. -/
def mainExitCode (ghPublish : Bool) (repoOk prOk : Bool)
    (suite : List MyCase) (thread : List String) : Nat :=
  if ghPublish then (reportToGithub repoOk prOk suite thread).2
  else aggregateErrors suite

/-- A registered check: its `_name` and `_doc` class attributes. -/
structure CheckDef where
  name : String
  doc : String
deriving DecidableEq, Repr

/-- `ComplianceTest.__subclasses__()` in class-declaration order. -/
def registeredChecks : List CheckDef :=
  [⟨"checkpatch",
    "https://docs.zephyrproject.org/latest/contribute/contribute_guidelines.html#coding-style"⟩,
   ⟨"Kconfig",
    "https://docs.zephyrproject.org/latest/application/kconfig-tips.html"⟩,
   ⟨"Documentation",
    "https://docs.zephyrproject.org/latest/contribute/doc-guidelines.html"⟩,
   ⟨"Gitlint",
    "https://docs.zephyrproject.org/latest/contribute/contribute_guidelines.html#commit-guidelines"⟩,
   ⟨"License",
    "https://docs.zephyrproject.org/latest/contribute/contribute_guidelines.html#licensing"⟩,
   ⟨"Identity/Emails",
    "https://docs.zephyrproject.org/latest/contribute/contribute_guidelines.html#commit-guidelines"⟩]

/-- main's selection loop: with a non-empty `args.module` list only
checks named there run; otherwise every check runs unless named in
`args.exclude_module`. -/
def selectChecks (incl excl : List String) : List CheckDef → List CheckDef
  | [] => []
  | d :: rest =>
    if incl.isEmpty then
      (if excl.contains d.name then selectChecks incl excl rest
       else d :: selectChecks incl excl rest)
    else
      (if incl.contains d.name then d :: selectChecks incl excl rest
       else selectChecks incl excl rest)

/-- One serialized test-case record of the JUnit report: the attributes
that were assigned, and the child result element when a result was set
(junitparser writes the element's message and type attributes and its
inner text from the stored result). -/
structure CaseRecord where
  name : String
  classname : Option String
  doc : Option String
  outcome : Option TestResult
deriving DecidableEq, Repr

/-- Serialization of one case by `xml.write`. -/
def writeCase (c : MyCase) : CaseRecord :=
  ⟨c.name, c.classname, c.doc, c.result⟩

/-- Serialization of the whole suite. -/
def writeSuite (suite : List MyCase) : List CaseRecord :=
  suite.map writeCase

/-- main's per-check step `test.run(); suite.add_testcase(test.case)`:
the call is not wrapped in any try/except, so a raising run contract
(modelled as the `Except.error` branch) escapes instead of being
recorded. -/
def runnerStep (outcome : Except String (Option TestResult)) (name : String) :
    Except String MyCase :=
  match outcome with
  | Except.error e => Except.error e
  | Except.ok r => Except.ok (setResult (prepare name) r)

/-- The external-process launches CheckPatch.run performs. -/
inductive CPAction
  | launchDiff
  | invokeScript
deriving DecidableEq, Repr

/-- Observable trace of one CheckPatch.run call: the launches performed,
the result recorded right after the existence test, and the result left
on the case when run returns. -/
structure CheckPatchTrace where
  actions : List CPAction
  recordedBeforeInvoke : Option TestResult
  finalResult : Option TestResult
deriving DecidableEq, Repr

/-- The regex `([1-9][0-9]*) errors,` matched at the head of a character
list: a nonzero digit, a maximal run of digits, then the literal
" errors,". -/
def errorsPatternAt : List Char → Bool
  | [] => false
  | c :: rest =>
    (decide ('1' ≤ c) && decide (c ≤ '9'))
      && " errors,".data.isPrefixOf (rest.dropWhile Char.isDigit)

/-- `re.search("([1-9][0-9]*) errors,", out)` as a boolean: the pattern
matches at some position. -/
def searchErrors (s : String) : Bool :=
  s.data.tails.any errorsPatternAt

/-- CheckPatch.run.  `scriptExists` is `os.path.exists(checkpatch)`;
`checkpatchOut` is `some out` when the checkpatch invocation raised
CalledProcessError with output `out`, `none` when it exited cleanly.
The missing-script branch assigns a Skipped result but has no return
statement, so the diff launch and the script invocation follow
unconditionally, and a matching error output overwrites the result with
a Failure. -/
def checkPatchRun (scriptExists : Bool) (checkpatchOut : Option String) : CheckPatchTrace :=
  let case0 : Option TestResult :=
    if scriptExists then none
    else some ⟨ResultTag.skippedTag, "checkpatch script not found", "skipped", none⟩
  let final : Option TestResult :=
    match checkpatchOut with
    | none => case0
    | some out =>
      if searchErrors out then
        some ⟨ResultTag.failureTag, "Checkpatch issues", "failure", some out⟩
      else case0
  ⟨[CPAction.launchDiff, CPAction.invokeScript], case0, final⟩

/-- A Gitlint case with a recorded Failure, as GitLint.run builds it. -/
def gitlintFailCase : MyCase :=
  ⟨"Gitlint", some "Guidelines", none,
   some ⟨ResultTag.failureTag, "commit message syntax issues", "failure",
         some "1: T1 Title exceeds max length"⟩⟩

/-- A Kconfig case with the Skipped result KconfigCheck.run records when
ZEPHYR_BASE is unset. -/
def kconfigSkippedCase : MyCase :=
  ⟨"Kconfig", some "Guidelines", none,
   some ⟨ResultTag.skippedTag, "Not a Zephyr tree", "skipped", none⟩⟩

/-- A Documentation case with the Error element (type "failure") that
Documentation.run records when doc.warnings is non-empty. -/
def docsErrorCase : MyCase :=
  ⟨"Documentation", some "Guidelines", none,
   some ⟨ResultTag.errorTag, "Documentation Issues", "failure", some "doc warning"⟩⟩

/-- A mixed suite covering all four statuses, as one run could record. -/
def wfSuite : List MyCase :=
  [prepare "checkpatch", kconfigSkippedCase, gitlintFailCase, docsErrorCase]

/-- An issue thread already holding a marked comment from a prior
failing run. -/
def staleThread : List String :=
  ["Found the following issues, please fix and resubmit:\n\n## stale issue\n"]

/-- The Failure result CheckPatch.run records for style issues. -/
def checkpatchFailResult : TestResult :=
  ⟨ResultTag.failureTag, "Checkpatch issues", "failure",
   some "total: 3 errors, 0 warnings"⟩

theorem foldl_count_eq_countP (l : List MyCase) (n : Nat) :
    l.foldl (fun errors c => if countedResult c.result then errors + 1 else errors) n
      = n + l.countP (fun c => countedResult c.result) := by
  induction l generalizing n with
  | nil => simp
  | cons c rest ih =>
    simp only [List.foldl_cons, List.countP_cons, ih]
    by_cases h : countedResult c.result = true <;> simp [h] <;> omega

theorem aggregateErrors_eq_countP (suite : List MyCase) :
    aggregateErrors suite = suite.countP (fun c => countedResult c.result) := by
  simpa [aggregateErrors] using foldl_count_eq_countP suite 0

theorem counted_eq_of_wf (r : Option TestResult) (h : resultWF r) :
    countedResult r
      = (resultStatus r == Status.Failed || resultStatus r == Status.Error) := by
  match r with
  | none => rfl
  | some ⟨tag, msg, ty, tx⟩ =>
    cases tag with
    | skippedTag =>
      have h2 : ty = "skipped" :=
        (show ty = "skipped" ↔ ResultTag.skippedTag = ResultTag.skippedTag from h).mpr rfl
      simp [countedResult, resultStatus, h2]
    | failureTag =>
      have h2 : ¬ ty = "skipped" := fun hx =>
        ResultTag.noConfusion
          ((show ty = "skipped" ↔ ResultTag.failureTag = ResultTag.skippedTag from h).mp hx)
      simp [countedResult, resultStatus, h2]
    | errorTag =>
      have h2 : ¬ ty = "skipped" := fun hx =>
        ResultTag.noConfusion
          ((show ty = "skipped" ↔ ResultTag.errorTag = ResultTag.skippedTag from h).mp hx)
      simp [countedResult, resultStatus, h2]

theorem statusState_eq_of_wf (c : MyCase) (h : resultWF c.result) :
    statusState c
      = if resultStatus c.result = Status.Failed ∨ resultStatus c.result = Status.Error
        then "failure" else "success" := by
  cases hs : resultStatus c.result <;>
    simp [statusState, counted_eq_of_wf c.result h, hs]

theorem processCase_commentCnt (st : PubState) (c : MyCase) :
    (processCase st c).commentCnt
      = st.commentCnt + (if countedResult c.result then 1 else 0) := by
  rcases hr : c.result with _ | r
  · simp [processCase, countedResult, hr]
  · by_cases ht : (r.type != "skipped") = true <;>
      simp [processCase, countedResult, hr, ht]

theorem processCase_statuses (st : PubState) (c : MyCase) :
    (processCase st c).statuses = st.statuses ++ [(c.name, statusState c)] := by
  rcases hr : c.result with _ | r
  · simp [processCase, statusState, countedResult, hr]
  · by_cases ht : (r.type != "skipped") = true <;>
      simp [processCase, statusState, countedResult, hr, ht]

theorem processCase_comment_grows (st : PubState) (c : MyCase) :
    st.comment.data <+: (processCase st c).comment.data := by
  rcases hr : c.result with _ | r
  · simp [processCase, hr]
  · by_cases ht : (r.type != "skipped") = true <;>
      simp [processCase, hr, ht, String.data_append]

theorem processResults_go_cnt (l : List MyCase) (st : PubState) :
    (l.foldl processCase st).commentCnt
      = st.commentCnt + l.countP (fun c => countedResult c.result) := by
  induction l generalizing st with
  | nil => simp
  | cons c rest ih =>
    simp only [List.foldl_cons, List.countP_cons, ih, processCase_commentCnt]
    by_cases h : countedResult c.result = true <;> simp [h] <;> omega

theorem processResults_go_statuses (l : List MyCase) (st : PubState) :
    (l.foldl processCase st).statuses
      = st.statuses ++ l.map (fun c => (c.name, statusState c)) := by
  induction l generalizing st with
  | nil => simp
  | cons c rest ih =>
    simp only [List.foldl_cons, List.map_cons, ih, processCase_statuses]
    simp

theorem processResults_go_comment (l : List MyCase) (st : PubState) :
    st.comment.data <+: (l.foldl processCase st).comment.data := by
  induction l generalizing st with
  | nil => exact List.prefix_refl _
  | cons c rest ih =>
    exact (processCase_comment_grows st c).trans (ih _)

theorem processResults_cnt (suite : List MyCase) :
    (processResults suite).commentCnt
      = suite.countP (fun c => countedResult c.result) := by
  simpa [processResults] using processResults_go_cnt suite ⟨commentHeader, 0, []⟩

/-- Claim C1: on the non-publishing path the value passed to sys.exit is
the number of results whose status is Failed or Error; Skipped and
Passed results never contribute. -/
theorem exit_code_counts_failed_error (repoOk prOk : Bool)
    (suite : List MyCase) (thread : List String)
    (hwf : ∀ c ∈ suite, resultWF c.result) :
    mainExitCode false repoOk prOk suite thread
      = suite.countP
          (fun c => resultStatus c.result == Status.Failed
            || resultStatus c.result == Status.Error) := by
  show aggregateErrors suite = _
  rw [aggregateErrors_eq_countP]
  apply List.countP_congr
  intro c hc
  rw [counted_eq_of_wf c.result (hwf c hc)]

theorem exit_code_counts_failed_error_witness :
    (∀ c ∈ wfSuite, resultWF c.result)
    ∧ mainExitCode false true true wfSuite []
        = wfSuite.countP
            (fun c => resultStatus c.result == Status.Failed
              || resultStatus c.result == Status.Error) :=
  ⟨by decide, exit_code_counts_failed_error true true wfSuite [] (by decide)⟩

/-- Claim C6: report_to_github's returned comment_count equals the
aggregator's exit-code count on the same suite, so the process exit code
is identical with and without the publishing path. -/
theorem publish_count_matches_exit_code (repoOk prOk : Bool)
    (suite : List MyCase) (thread : List String) :
    (reportToGithub repoOk prOk suite thread).2 = aggregateErrors suite
    ∧ mainExitCode true repoOk prOk suite thread
        = mainExitCode false repoOk prOk suite thread := by
  have h : (reportToGithub repoOk prOk suite thread).2 = aggregateErrors suite := by
    show (processResults suite).commentCnt = aggregateErrors suite
    rw [aggregateErrors_eq_countP, processResults_cnt]
  exact ⟨h, by simpa [mainExitCode] using h⟩

theorem hasSubstr_of_isPrefix (needle l : List Char) (h : needle <+: l) :
    hasSubstr needle l = true := by
  cases l with
  | nil =>
    have h0 : needle = [] := List.prefix_nil.mp h
    simp [hasSubstr, h0]
  | cons c rest =>
    have h1 : needle.isPrefixOf (c :: rest) = true := by
      rw [List.isPrefixOf_iff_prefix]; exact h
    simp [hasSubstr, h1]

theorem marker_in_processResults (suite : List MyCase) :
    commentMarker.data <+: (processResults suite).comment.data := by
  have h1 : commentMarker.data <+: commentHeader.data := ⟨":\n\n".data, by decide⟩
  exact h1.trans (processResults_go_comment suite ⟨commentHeader, 0, []⟩)

theorem containsMarker_of_marker_start (body : String)
    (h : commentMarker.data <+: body.data) :
    containsMarker body = true :=
  hasSubstr_of_isPrefix _ _ h

/-- Claim C9: every consolidated comment body built by report_to_github
begins with the fixed phrase that is also the exact substring later runs
search existing comments for, so a synchronizer-authored comment is
always recognized by the synchronizer's own search. -/
theorem comment_marker_recognized (suite : List MyCase) :
    commentMarker.data <+: (processResults suite).comment.data
    ∧ containsMarker (processResults suite).comment = true :=
  ⟨marker_in_processResults suite,
   containsMarker_of_marker_start _ (marker_in_processResults suite)⟩

theorem countP_editFirstMarked (body : String) (hb : containsMarker body = true)
    (l : List String) :
    (editFirstMarked body l).countP containsMarker = l.countP containsMarker := by
  induction l with
  | nil => rfl
  | cons c rest ih =>
    by_cases h : containsMarker c = true
    · simp [editFirstMarked, h, List.countP_cons, hb]
    · simp [editFirstMarked, h, List.countP_cons, ih]

theorem countP_publishThread (body : String) (thread : List String)
    (hb : containsMarker body = true) (hle : thread.countP containsMarker ≤ 1) :
    (publishThread body thread).countP containsMarker = 1 := by
  unfold publishThread
  by_cases h : thread.any containsMarker = true
  · rw [if_pos h, countP_editFirstMarked body hb]
    have h2 : 0 < thread.countP containsMarker := by
      rw [List.countP_pos_iff]
      exact List.any_eq_true.mp h
    omega
  · rw [if_neg h]
    have h0 : thread.countP containsMarker = 0 := by
      rw [List.countP_eq_zero]
      intro a ha hpa
      exact h (List.any_eq_true.mpr ⟨a, ha, hpa⟩)
    simp [List.countP_append, h0, List.countP_cons, hb]

theorem reportToGithub_thread_pos (suite : List MyCase) (thread : List String)
    (h : 0 < (processResults suite).commentCnt) :
    (reportToGithub true true suite thread).1.1
      = publishThread (processResults suite).comment thread := by
  simp [reportToGithub, h]

/-- Claim C2: publishing is idempotent on the consolidated comment: a
prior marked comment is edited in place, otherwise exactly one comment
is created, so two publishes of the same non-empty issue set against the
same thread leave exactly one marked comment. -/
theorem publish_idempotent (suite : List MyCase) (thread : List String)
    (hcnt : 0 < (processResults suite).commentCnt)
    (hprior : thread.countP containsMarker ≤ 1) :
    ((reportToGithub true true suite
        ((reportToGithub true true suite thread).1.1)).1.1).countP containsMarker = 1 := by
  have hb : containsMarker (processResults suite).comment = true :=
    containsMarker_of_marker_start _ (marker_in_processResults suite)
  rw [reportToGithub_thread_pos suite thread hcnt,
    reportToGithub_thread_pos suite _ hcnt]
  apply countP_publishThread _ _ hb
  rw [countP_publishThread _ _ hb hprior]

theorem publish_idempotent_witness :
    0 < (processResults [gitlintFailCase]).commentCnt
    ∧ ([] : List String).countP containsMarker ≤ 1
    ∧ ((reportToGithub true true [gitlintFailCase]
        ((reportToGithub true true [gitlintFailCase] []).1.1)).1.1).countP containsMarker = 1 :=
  ⟨by decide, by decide, publish_idempotent [gitlintFailCase] [] (by decide) (by decide)⟩

/-- Claim C3: with zero non-Passed, non-Skipped results report_to_github
neither creates nor edits any comment, even when an existing marked
comment sits on the thread. -/
theorem publish_zero_leaves_thread (repoOk prOk : Bool)
    (suite : List MyCase) (thread : List String)
    (h : (processResults suite).commentCnt = 0) :
    (reportToGithub repoOk prOk suite thread).1.1 = thread := by
  simp [reportToGithub, h]

theorem publish_zero_leaves_thread_witness :
    (processResults [kconfigSkippedCase]).commentCnt = 0
    ∧ (reportToGithub true true [kconfigSkippedCase] staleThread).1.1 = staleThread :=
  ⟨by decide,
   publish_zero_leaves_thread true true [kconfigSkippedCase] staleThread (by decide)⟩

/-- Claim C5 counterexample: a Skipped result takes the else branch of
report_to_github's status dispatch and receives the commit status
'success', not 'failure' as the claim states. -/
theorem skipped_gets_success_status :
    resultStatus kconfigSkippedCase.result = Status.Skipped
    ∧ statusState kconfigSkippedCase = "success"
    ∧ (processResults [kconfigSkippedCase]).statuses = [("Kconfig", "success")]
    ∧ statusState kconfigSkippedCase ≠ "failure" := by
  decide

/-- Claim C5 (amended): report_to_github sets one commit status per
result in suite order: 'success' for results with status Passed or
Skipped, 'failure' for results with status Failed or Error. -/
theorem statuses_success_passed_skipped (suite : List MyCase)
    (hwf : ∀ c ∈ suite, resultWF c.result) :
    (processResults suite).statuses = suite.map (fun c => (c.name, statusState c))
    ∧ ∀ c ∈ suite, statusState c
        = if resultStatus c.result = Status.Failed ∨ resultStatus c.result = Status.Error
          then "failure" else "success" := by
  constructor
  · simpa [processResults] using processResults_go_statuses suite ⟨commentHeader, 0, []⟩
  · intro c hc
    exact statusState_eq_of_wf c (hwf c hc)

theorem statuses_success_passed_skipped_witness :
    (∀ c ∈ wfSuite, resultWF c.result)
    ∧ ((processResults wfSuite).statuses = wfSuite.map (fun c => (c.name, statusState c))
       ∧ ∀ c ∈ wfSuite, statusState c
          = if resultStatus c.result = Status.Failed ∨ resultStatus c.result = Status.Error
            then "failure" else "success") :=
  ⟨by decide, statuses_success_passed_skipped wfSuite (by decide)⟩

theorem selectChecks_mem_incl (incl excl : List String) (checks : List CheckDef)
    (hne : incl ≠ []) :
    ∀ c ∈ selectChecks incl excl checks, c.name ∈ incl := by
  have hie : incl.isEmpty = false := by simp [List.isEmpty_iff, hne]
  induction checks with
  | nil => intro c hc; simp [selectChecks] at hc
  | cons d rest ih =>
    intro c hc
    by_cases hcont : d.name ∈ incl
    · simp [selectChecks, hie, hcont] at hc
      rcases hc with rfl | hc
      · exact hcont
      · exact ih c hc
    · simp [selectChecks, hie, hcont] at hc
      exact ih c hc

theorem selectChecks_sublist (incl excl : List String) (checks : List CheckDef) :
    List.Sublist (selectChecks incl excl checks) checks := by
  induction checks with
  | nil => simp [selectChecks]
  | cons d rest ih =>
    by_cases hie : incl.isEmpty = true
    · by_cases hexc : d.name ∈ excl
      · simpa [selectChecks, hie, hexc] using List.Sublist.cons d ih
      · simpa [selectChecks, hie, hexc] using List.Sublist.cons₂ d ih
    · by_cases hcont : d.name ∈ incl
      · simpa [selectChecks, hie, hcont] using List.Sublist.cons₂ d ih
      · simpa [selectChecks, hie, hcont] using List.Sublist.cons d ih

theorem selectChecks_ignores_excl (incl excl excl2 : List String)
    (checks : List CheckDef) (hne : incl ≠ []) :
    selectChecks incl excl checks = selectChecks incl excl2 checks := by
  have hie : incl.isEmpty = false := by simp [List.isEmpty_iff, hne]
  induction checks with
  | nil => rfl
  | cons d rest ih =>
    by_cases hcont : d.name ∈ incl <;>
      simp [selectChecks, hie, hcont, ih]

theorem selectChecks_empty_incl (excl : List String) (checks : List CheckDef) :
    selectChecks [] excl checks
      = checks.filter (fun c => !(excl.contains c.name)) := by
  induction checks with
  | nil => rfl
  | cons d rest ih =>
    by_cases hexc : d.name ∈ excl <;>
      simp [selectChecks, hexc, List.filter_cons, ih]

/-- Claim C4: with a non-empty include filter main runs only checks
named in it, in registration order, silently dropping unknown names and
ignoring the exclude list entirely; with an empty include filter every
registered check runs except those named in the exclude list. -/
theorem select_checks_spec (incl excl excl2 : List String) (checks : List CheckDef) :
    (incl ≠ [] →
      (∀ c ∈ selectChecks incl excl checks, c.name ∈ incl)
      ∧ List.Sublist (selectChecks incl excl checks) checks
      ∧ selectChecks incl excl checks = selectChecks incl excl2 checks)
    ∧ (incl = [] →
      selectChecks incl excl checks
        = checks.filter (fun c => !(excl.contains c.name))) := by
  constructor
  · intro hne
    exact ⟨selectChecks_mem_incl incl excl checks hne,
           selectChecks_sublist incl excl checks,
           selectChecks_ignores_excl incl excl excl2 checks hne⟩
  · intro he
    subst he
    exact selectChecks_empty_incl excl checks

theorem select_checks_spec_witness :
    ((["Gitlint", "unknown-check"] : List String) ≠ []
      ∧ ((∀ c ∈ selectChecks ["Gitlint", "unknown-check"] ["License"] registeredChecks,
            c.name ∈ (["Gitlint", "unknown-check"] : List String))
         ∧ List.Sublist
             (selectChecks ["Gitlint", "unknown-check"] ["License"] registeredChecks)
             registeredChecks
         ∧ selectChecks ["Gitlint", "unknown-check"] ["License"] registeredChecks
             = selectChecks ["Gitlint", "unknown-check"] [] registeredChecks))
    ∧ (([] : List String) = []
      ∧ selectChecks [] ["License"] registeredChecks
          = registeredChecks.filter
              (fun c => !((["License"] : List String).contains c.name))) :=
  ⟨⟨by decide,
    (select_checks_spec ["Gitlint", "unknown-check"] ["License"] [] registeredChecks).1
      (by decide)⟩,
   ⟨rfl, (select_checks_spec [] ["License"] [] registeredChecks).2 rfl⟩⟩

/-- Claim C7 (code bug): the serialized test-case record carries the
case name, the fixed classname "Guidelines" and the status-specific
result element with its text, but never the check's doc reference:
prepare() assigns classname only, and no statement in the script ever
assigns the declared doc attribute, so the record's doc field is none
for every possible recorded result. -/
theorem written_record_lacks_doc :
    writeCase (setResult (prepare "checkpatch") (some checkpatchFailResult))
      = ⟨"checkpatch", some "Guidelines", none, some checkpatchFailResult⟩
    ∧ (∀ r : Option TestResult, (writeCase (setResult (prepare "checkpatch") r)).doc = none)
    ∧ writeSuite [setResult (prepare "checkpatch") (some checkpatchFailResult)]
        = [⟨"checkpatch", some "Guidelines", none, some checkpatchFailResult⟩] :=
  ⟨rfl, fun _ => rfl, rfl⟩

/-- Claim C8 (code bug): main's loop calls test.run() with no
try/except, so a raising run contract leaves the runner as an escaped
exception and is never recorded as a result of any status, Error
included. -/
theorem runner_lets_exceptions_escape :
    runnerStep (Except.error "ErrorReturnCode: git rev-list failed") "Identity/Emails"
      = Except.error "ErrorReturnCode: git rev-list failed"
    ∧ ∀ c : MyCase,
        runnerStep (Except.error "ErrorReturnCode: git rev-list failed") "Identity/Emails"
          ≠ Except.ok c :=
  ⟨rfl, fun c h => by simp [runnerStep] at h⟩

/-- Claim C10: when the checkpatch script is missing, CheckPatch.run
records a Skipped result but does not return early: the diff launch and
the script invocation still happen, and an invocation output matching
the error pattern overwrites the result, so the final status is not
guaranteed to remain Skipped. -/
theorem checkpatch_missing_script_continues :
    (∀ out, (checkPatchRun false out).actions = [CPAction.launchDiff, CPAction.invokeScript])
    ∧ (∀ out, resultStatus (checkPatchRun false out).recordedBeforeInvoke = Status.Skipped)
    ∧ resultStatus (checkPatchRun false (some "1 errors, 0 warnings")).finalResult
        = Status.Failed
    ∧ resultStatus (checkPatchRun false (some "1 errors, 0 warnings")).finalResult
        ≠ Status.Skipped := by
  refine ⟨fun out => rfl, fun out => rfl, ?_, ?_⟩ <;> decide

end CheckCompliance
